import Mathlib

/-!
Shallow embedding of `src/server/services/python/handwriting_recognition.py`.

Conventions used throughout:
* tensors are nested lists of rationals (`ℚ` stands in for Python floats; the
  claims checked here are about shapes, ranges and argmax, none of which
  depend on rounding);
* a Python exception is modelled by `Except String`, the `String` being the
  message of the generic `Exception` the source raises (the source never
  defines exception subclasses);
* calls into third-party libraries (`base64.b64decode`, PIL image parsing,
  `torchvision` transforms, `torch` tensor operations) are modelled by
  executable Lean functions following the documented behaviour of those
  libraries; PIL's image parser, whose file-format decoding is out of scope,
  is a parameter `dec` constrained only by the documented fact that a decoded
  image has byte-valued (0..255) pixel channels.
-/

namespace HandwritingRecognition

abbrev Grid := List (List ℚ)
abbrev Tensor3 := List Grid
abbrev Tensor4 := List Tensor3

/-- The fixed alphabet, line 65 of the source:
`characters = "0123456789ABCDEFGHIJKLMNOPQRSTUVWXYZabcdefghijklmnopqrstuvwxyz"`. -/
def characters : String :=
  "0123456789ABCDEFGHIJKLMNOPQRSTUVWXYZabcdefghijklmnopqrstuvwxyz"

/-- Accumulator loop behind `torch.max(output, 1)`'s index result: scans the
remaining scores, keeping the current best index; it updates only on a
strictly greater value, so the first occurrence of the maximum wins
(torch documents exactly this first-occurrence tie-break). `i` is the index
of the head of the remaining list, `best` the index of the best value so far,
`bv` that value. -/
def argmaxAux : List ℚ → ℚ → Nat → Nat → Nat
  | [], _, _, best => best
  | v :: rest, bv, i, best =>
    if bv < v then argmaxAux rest v (i + 1) i
    else argmaxAux rest bv (i + 1) best

/-- Index returned by `torch.max(scores, 1)` for one row of scores
(first occurrence of the maximum). The empty case is unreachable in the
source (`torch.max` raises on an empty reduction dim, handled in `decode`). -/
def argmax : List ℚ → Nat
  | [] => 0
  | v :: rest => argmaxAux rest v 1 0

/-- Label decoding, lines 66-67 of the source:
`_, predicted = torch.max(output, 1)` followed by
`recognized_char = characters[predicted.item()]`.
`torch.max` raises on an empty reduction dimension; Python string indexing
raises `IndexError` when the index is out of range. -/
def decode (scores : List ℚ) : Except String Char :=
  if scores.isEmpty then
    .error "max(): Expected reduction dim 1 to have non-zero size."
  else
    let cs := characters.toList
    let predicted := argmax scores
    if h : predicted < cs.length then .ok (cs.get ⟨predicted, h⟩)
    else .error "string index out of range"

/-! ## Classifier (`HandwritingRecognitionModel`, lines 8-27)

The architecture is fixed in `__init__`: `Conv2d(1, 32, kernel_size=3,
stride=1, padding=1)`, `ReLU`, `MaxPool2d(2, 2)`, `Conv2d(32, 64, 3, 1, 1)`,
`ReLU`, `MaxPool2d(2, 2)`, then `Linear(64*7*7, 128)` and `Linear(128, 62)`.
Parameters are randomly initialised by torch, so the embedding quantifies
over them; `ModelParams.wf` records the shapes the constructor allocates. -/

def gridAt (g : Grid) (i j : Nat) : ℚ := (g.getD i []).getD j 0

/-- Reads a zero-padded pixel: `Conv2d(..., padding=1)` surrounds the input
with zeros, which `getD`'s default also supplies beyond the far edges. -/
def padAt (g : Grid) (i j : Int) : ℚ :=
  if 0 ≤ i ∧ 0 ≤ j then gridAt g i.toNat j.toNat else 0

/-- One output channel of a `Conv2d(_, _, kernel_size=3, stride=1, padding=1)`
layer: `ker` is that channel's stack of 3×3 kernels (one per input channel),
`b` its bias; output spatial size equals input spatial size `H × W`. -/
def convOut (ker : List Grid) (b : ℚ) (input : Tensor3) (H W : Nat) : Grid :=
  (List.range H).map fun (i : Nat) =>
    (List.range W).map fun (j : Nat) =>
      b + ((List.range ker.length).map fun (ic : Nat) =>
        ((List.range 3).map fun (di : Nat) =>
          ((List.range 3).map fun (dj : Nat) =>
            gridAt (ker.getD ic []) di dj *
              padAt (input.getD ic [])
                (Int.ofNat i + Int.ofNat di - 1)
                (Int.ofNat j + Int.ofNat dj - 1)).sum).sum).sum

/-- `nn.Conv2d` with kernel 3, stride 1, padding 1: weight is
outChannels × inChannels × 3 × 3, output spatial size read off the input. -/
def conv2d (weight : List (List Grid)) (bias : List ℚ) (input : Tensor3) : Tensor3 :=
  let H := (input.getD 0 []).length
  let W := ((input.getD 0 []).getD 0 []).length
  (List.range weight.length).map fun oc =>
    convOut (weight.getD oc []) (bias.getD oc 0) input H W

/-- Rectified linear unit on one value (`nn.ReLU` / `torch.relu`). -/
def reluQ (x : ℚ) : ℚ := max x 0

def reluGrid (g : Grid) : Grid := g.map fun row => row.map reluQ

def relu3 (t : Tensor3) : Tensor3 := t.map reluGrid

def reluV (v : List ℚ) : List ℚ := v.map reluQ

/-- `nn.MaxPool2d(kernel_size=2, stride=2)` on one channel: each output pixel
is the maximum of a disjoint 2×2 block; spatial size halves (floor). -/
def pool2 (g : Grid) : Grid :=
  (List.range (g.length / 2)).map fun i =>
    (List.range ((g.getD 0 []).length / 2)).map fun j =>
      max (max (gridAt g (2 * i) (2 * j)) (gridAt g (2 * i) (2 * j + 1)))
        (max (gridAt g (2 * i + 1) (2 * j)) (gridAt g (2 * i + 1) (2 * j + 1)))

def maxPool2 (t : Tensor3) : Tensor3 := t.map pool2

/-- Row-major flattening of one sample, `x.view(x.size(0), -1)`:
channel-major, then rows, then columns. -/
def flatten3 (t : Tensor3) : List ℚ := (t.map fun g => g.flatten).flatten

def dot (w x : List ℚ) : ℚ := ((w.zip x).map fun p => p.1 * p.2).sum

/-- `nn.Linear`: `y = x Wᵀ + b`, one output per weight row. -/
def linear (weight : Grid) (bias : List ℚ) (x : List ℚ) : List ℚ :=
  (List.range weight.length).map fun i => dot (weight.getD i []) x + bias.getD i 0

/-- Shape of a single grid: `h` rows, each of width `w`. -/
abbrev gridShape (g : Grid) (h w : Nat) : Prop :=
  g.length = h ∧ ∀ row ∈ g, row.length = w

/-- Shape of a channel stack: `c` channels, each an `h × w` grid. -/
abbrev t3Shape (t : Tensor3) (c h w : Nat) : Prop :=
  t.length = c ∧ ∀ ch ∈ t, gridShape ch h w

/-- Shape of a batched tensor: `n` samples of `c` channels of `h × w`. -/
abbrev t4Shape (t : Tensor4) (n c h w : Nat) : Prop :=
  t.length = n ∧ ∀ b ∈ t, t3Shape b c h w

/-- The parameters `HandwritingRecognitionModel.__init__` allocates. -/
structure ModelParams where
  conv1w : List (List Grid)
  conv1b : List ℚ
  conv2w : List (List Grid)
  conv2b : List ℚ
  fcw : Grid
  fcb : List ℚ
  outw : Grid
  outb : List ℚ

/-- Shapes fixed by the constructor: conv stages with 32 and 64 output
channels, dense layers with 128 and 62 output units. -/
def ModelParams.wf (p : ModelParams) : Prop :=
  p.conv1w.length = 32 ∧ p.conv1b.length = 32 ∧
  p.conv2w.length = 64 ∧ p.conv2b.length = 64 ∧
  p.fcw.length = 128 ∧ p.fcb.length = 128 ∧
  p.outw.length = 62 ∧ p.outb.length = 62

instance (p : ModelParams) : Decidable p.wf := by
  unfold ModelParams.wf; infer_instance

/-- First `{conv → relu → pool}` stage of `self.cnn`. -/
def cnnStage1 (p : ModelParams) (img : Tensor3) : Tensor3 :=
  maxPool2 (relu3 (conv2d p.conv1w p.conv1b img))

/-- Second `{conv → relu → pool}` stage of `self.cnn`. -/
def cnnStage2 (p : ModelParams) (t : Tensor3) : Tensor3 :=
  maxPool2 (relu3 (conv2d p.conv2w p.conv2b t))

/-- The 128-unit hidden layer `torch.relu(self.fc(x))`. -/
def hidden (p : ModelParams) (flat : List ℚ) : List ℚ :=
  reluV (linear p.fcw p.fcb flat)

/-- `forward` on one sample: `self.cnn`, flatten, `torch.relu(self.fc(x))`,
then `self.output(x)` with no softmax or other normalisation after it. -/
def forwardOne (p : ModelParams) (img : Tensor3) : List ℚ :=
  linear p.outw p.outb (hidden p (flatten3 (cnnStage2 p (cnnStage1 p img))))

/-- `forward` maps over the batch dimension. -/
def forward (p : ModelParams) (x : Tensor4) : List (List ℚ) :=
  x.map (forwardOne p)

/-- Observable state of an `nn.Module`: its parameters and the
`training` flag that `model.eval()` clears. -/
structure ModelState where
  params : ModelParams
  training : Bool

/-- Lines 29-34: builds the model (parameters `p` stand for the random
initialisation) and calls `model.eval()`, clearing the training flag. -/
def get_model (p : ModelParams) : ModelState :=
  ⟨p, false⟩

/-- Line 62: `with torch.no_grad(): output = model(image_tensor)`. The
forward pass assigns to no parameter and gradient tracking is off, so the
state comes back unchanged next to the scores. -/
def score (m : ModelState) (x : Tensor4) : List (List ℚ) × ModelState :=
  (forward m.params x, m)

/-- A concrete parameter set with exactly the shapes the constructor
allocates (all values zero), used to instantiate universally quantified
statements. -/
def zeroParams : ModelParams :=
  ⟨List.replicate 32 [], List.replicate 32 0,
    List.replicate 64 [], List.replicate 64 0,
    List.replicate 128 [], List.replicate 128 0,
    List.replicate 62 [], List.replicate 62 0⟩

/-- A concrete all-black single-channel 28×28 image tensor. -/
def zeroImage : Tensor3 := [List.replicate 28 (List.replicate 28 (0 : ℚ))]

/-! ## Image normalisation (`process_image`, lines 36-52)

`base64.b64decode` is modelled faithfully to Python's non-validating mode:
characters outside the base64 alphabet are discarded, then padding is
checked and 6-bit groups are reassembled into bytes. PIL's `Image.open` is a
parameter: any function from bytes to an image or a failure, constrained in
the theorems only by the documented fact that decoded pixels are bytes. -/

/-- Value of a character in the standard base64 alphabet, if any. -/
def b64Index (c : Char) : Option Nat :=
  if 'A' ≤ c ∧ c ≤ 'Z' then some (c.toNat - 65)
  else if 'a' ≤ c ∧ c ≤ 'z' then some (c.toNat - 97 + 26)
  else if '0' ≤ c ∧ c ≤ '9' then some (c.toNat - 48 + 52)
  else if c = '+' then some 62
  else if c = '/' then some 63
  else none

/-- Reassembles bytes from 6-bit groups, three bytes per group of four
sextets; a trailing group of two or three sextets (from `=` padding)
contributes one or two bytes. -/
def b64Quads : List Nat → List Nat
  | a :: b :: c :: d :: rest =>
    (a * 4 + b / 16) :: ((b % 16) * 16 + c / 4) :: ((c % 4) * 64 + d) :: b64Quads rest
  | [a, b] => [a * 4 + b / 16]
  | [a, b, c] => [a * 4 + b / 16, (b % 16) * 16 + c / 4]
  | _ => []

/-- Models `base64.b64decode(s)` (default, non-validating mode): the string
must be ASCII, characters outside the alphabet and `=` are discarded, the
remaining length must be a multiple of four with at most two `=` at the end,
and the 6-bit groups are packed into bytes. -/
def b64decode (s : String) : Except String (List Nat) :=
  if ¬ s.toList.all (fun c => c.toNat < 128) then
    .error "string argument should contain only ASCII characters"
  else
    let cs := s.toList.filter fun c => (b64Index c).isSome || c == '='
    let body := cs.takeWhile fun c => c ≠ '='
    let pad := cs.dropWhile fun c => c ≠ '='
    if cs.length % 4 ≠ 0 then .error "Invalid padding"
    else if pad.any (fun c => c ≠ '=') || 2 < pad.length then .error "Invalid padding"
    else .ok (b64Quads (body.filterMap b64Index))

/-- One pixel as PIL exposes it; a grayscale source is the special case
`r = g = b`. -/
structure RGB where
  r : Nat
  g : Nat
  b : Nat
deriving DecidableEq

/-- A decoded raster image: a grid of pixels of arbitrary size. -/
structure PILImage where
  pixels : List (List RGB)
deriving DecidableEq

/-- The documented guarantee of PIL's decoders: every channel of every pixel
is a byte. -/
def PILImage.wf (img : PILImage) : Prop :=
  ∀ row ∈ img.pixels, ∀ c ∈ row, c.r ≤ 255 ∧ c.g ≤ 255 ∧ c.b ≤ 255

/-- ITU-R 601-2 luma used by `transforms.Grayscale()` (PIL `convert("L")`). -/
def lum (c : RGB) : Nat := (299 * c.r + 587 * c.g + 114 * c.b) / 1000

/-- `transforms.Grayscale()`: one byte-valued channel per pixel. -/
def grayscale (img : PILImage) : List (List Nat) :=
  img.pixels.map fun row => row.map lum

/-- `transforms.Resize((28, 28))`: forced resize to 28×28 regardless of the
source size or aspect ratio; modelled by sampling source pixels (the output
pixels of the library call are, like here, bytes taken from the source's
value range). -/
def resize28 (g : List (List Nat)) : List (List Nat) :=
  (List.range 28).map fun i =>
    (List.range 28).map fun j =>
      (g.getD (i * g.length / 28) []).getD (j * (g.getD 0 []).length / 28) 0

/-- `transforms.ToTensor()`: byte intensities rescaled to `[0, 1]` floats. -/
def toTensorQ (g : List (List Nat)) : Grid :=
  g.map fun row => row.map fun (v : Nat) => (v : ℚ) / 255

/-- Lines 36-52. `ImageDecoder` is the stand-in for `PIL.Image.open` on the
decoded bytes. Every failure in the `try` block is caught and re-raised as
`Exception(f"Error processing image: {str(e)}")`; on success the transform
pipeline runs and `unsqueeze(0)` prepends the batch dimension. -/
def process_image (dec : List Nat → Except String PILImage) (s : String) :
    Except String Tensor4 :=
  match b64decode s with
  | .error e => .error ("Error processing image: " ++ e)
  | .ok bytes =>
    match dec bytes with
    | .error e => .error ("Error processing image: " ++ e)
    | .ok img => .ok [[toTensorQ (resize28 (grayscale img))]]

/-- Lines 54-71: build the model, normalise the image, score it under
`torch.no_grad()`, decode the argmax through `characters`; any failure is
re-raised as `Exception(f"Error recognizing text: {str(e)}")`. -/
def recognize_text (dec : List Nat → Except String PILImage) (p : ModelParams)
    (s : String) : Except String Char :=
  let m := get_model p
  match process_image dec s with
  | .error e => .error ("Error recognizing text: " ++ e)
  | .ok t =>
    let output := (score m t).1
    match decode (output.getD 0 []) with
    | .error e => .error ("Error recognizing text: " ++ e)
    | .ok c => .ok c

instance (img : PILImage) : Decidable img.wf := by
  unfold PILImage.wf; infer_instance

/-- A stand-in image decoder that succeeds with a fixed 1×1 black image,
used to instantiate statements quantified over the decoder. -/
def onePixelDecoder : List Nat → Except String PILImage :=
  fun _ => .ok ⟨[[⟨0, 0, 0⟩]]⟩

/-- A stand-in image decoder that always fails, modelling bytes that are not
a decodable image. -/
def failingDecoder : List Nat → Except String PILImage :=
  fun _ => .error "cannot identify image file"

/-! ## General list helpers -/

theorem getD_prop {α : Type} {P : α → Prop} :
    ∀ (l : List α) (i : Nat) (d : α), (∀ x ∈ l, P x) → P d → P (l.getD i d)
  | [], i, d, _, hd => by simpa [List.getD] using hd
  | a :: l, 0, d, hl, _ => by simpa using hl a (by simp)
  | a :: l, i + 1, d, hl, hd => by
    simpa using getD_prop l i d (fun x hx => hl x (by simp [hx])) hd

theorem getD_mem {α : Type} :
    ∀ (l : List α) (i : Nat) (d : α), i < l.length → l.getD i d ∈ l
  | a :: l, 0, d, _ => by simp
  | a :: l, i + 1, d, h => by
    simpa using Or.inr (getD_mem l i d (by simpa using h))

theorem sum_map_const {α : Type} (k : Nat) :
    ∀ (l : List α) (f : α → Nat), (∀ x ∈ l, f x = k) → (l.map f).sum = l.length * k
  | [], _, _ => by simp
  | a :: l, f, h => by
    have ha := h a (by simp)
    have hl := sum_map_const k l f fun x hx => h x (by simp [hx])
    simp [ha, hl, Nat.succ_mul, Nat.add_comm]

/-! ## Specification of the argmax scan -/

theorem argmaxAux_spec :
    ∀ (rest : List ℚ) (bv : ℚ) (i best : Nat),
      (argmaxAux rest bv i best = best ∧ ∀ k, k < rest.length → rest.getD k 0 ≤ bv) ∨
      (∃ k, k < rest.length ∧ argmaxAux rest bv i best = i + k ∧ bv < rest.getD k 0 ∧
        (∀ m, m < k → rest.getD m 0 < rest.getD k 0) ∧
        (∀ m, m < rest.length → rest.getD m 0 ≤ rest.getD k 0))
  | [], bv, i, best => by simp [argmaxAux]
  | v :: rest, bv, i, best => by
    by_cases hlt : bv < v
    · rcases argmaxAux_spec rest v (i + 1) i with ⟨he, hle⟩ | ⟨k, hk, he, hvlt, hfirst, hmax⟩
      · refine Or.inr ⟨0, by simp, ?_, by simp [argmaxAux, hlt], ?_, ?_⟩
        · simpa [argmaxAux, hlt] using he
        · intro m hm; omega
        · intro m hm
          cases m with
          | zero => simp
          | succ m => simpa using hle m (by simpa using hm)
      · refine Or.inr ⟨k + 1, by simpa using hk, ?_, ?_, ?_, ?_⟩
        · rw [show i + (k + 1) = (i + 1) + k by omega]
          simpa [argmaxAux, hlt] using he
        · simpa using lt_trans hlt hvlt
        · intro m hm
          cases m with
          | zero => simpa using hvlt
          | succ m => simpa using hfirst m (by omega)
        · intro m hm
          cases m with
          | zero => simpa using le_of_lt hvlt
          | succ m => simpa using hmax m (by simpa using hm)
    · have hvle : v ≤ bv := not_lt.mp hlt
      rcases argmaxAux_spec rest bv (i + 1) best with ⟨he, hle⟩ | ⟨k, hk, he, hvlt, hfirst, hmax⟩
      · refine Or.inl ⟨by simpa [argmaxAux, hlt] using he, ?_⟩
        intro k hkl
        cases k with
        | zero => simpa using hvle
        | succ k => simpa using hle k (by simpa using hkl)
      · refine Or.inr ⟨k + 1, by simpa using hk, ?_, ?_, ?_, ?_⟩
        · rw [show i + (k + 1) = (i + 1) + k by omega]
          simpa [argmaxAux, hlt] using he
        · simpa using hvlt
        · intro m hm
          cases m with
          | zero => simpa using lt_of_le_of_lt hvle hvlt
          | succ m => simpa using hfirst m (by omega)
        · intro m hm
          cases m with
          | zero => simpa using le_of_lt (lt_of_le_of_lt hvle hvlt)
          | succ m => simpa using hmax m (by simpa using hm)

/-- The index `torch.max` returns is in range, carries a maximal score, and
is the first occurrence of the maximum. -/
theorem argmax_spec (l : List ℚ) (hne : l ≠ []) :
    argmax l < l.length ∧
    (∀ j, j < l.length → l.getD j 0 ≤ l.getD (argmax l) 0) ∧
    (∀ j, j < argmax l → l.getD j 0 < l.getD (argmax l) 0) := by
  cases l with
  | nil => exact absurd rfl hne
  | cons v rest =>
    have hax : argmax (v :: rest) = argmaxAux rest v 1 0 := rfl
    rcases argmaxAux_spec rest v 1 0 with ⟨he, hle⟩ | ⟨k, hk, he, hvlt, hfirst, hmax⟩
    · rw [hax, he]
      refine ⟨by simp, ?_, ?_⟩
      · intro j hj
        cases j with
        | zero => simp
        | succ j => simpa using hle j (by simpa using hj)
      · intro j hj
        exact (Nat.not_lt_zero j hj).elim
    · rw [hax, he, show (1 : Nat) + k = k + 1 by omega]
      refine ⟨by simpa using hk, ?_, ?_⟩
      · intro j hj
        cases j with
        | zero => simpa using le_of_lt hvlt
        | succ j => simpa using hmax j (by simpa using hj)
      · intro j hj
        cases j with
        | zero => simpa using hvlt
        | succ j => simpa using hfirst j (by omega)

theorem argmaxAux_replicate (q : ℚ) :
    ∀ (n : Nat) (i best : Nat), argmaxAux (List.replicate n q) q i best = best
  | 0, i, best => by simp [argmaxAux]
  | n + 1, i, best => by
    simpa [List.replicate, argmaxAux] using argmaxAux_replicate q n (i + 1) best

/-- A constant score vector has its first maximum at index `0`. -/
theorem argmax_replicate (n : Nat) (q : ℚ) : argmax (List.replicate (n + 1) q) = 0 := by
  simpa [List.replicate, argmax] using argmaxAux_replicate q n 1 0

/-! ## Decoder lemmas -/

deriving instance DecidableEq for Except

theorem characters_toList_length : characters.toList.length = 62 := by decide

/-- On a nonempty score vector whose argmax stays below 62, the decoding
step succeeds and returns the alphabet character at the argmax index. -/
theorem decode_eq_ok (scores : List ℚ) (h0 : scores ≠ [])
    (hle : scores.length ≤ 62) :
    decode scores = .ok (characters.toList.getD (argmax scores) ' ') := by
  have hlt : argmax scores < scores.length := (argmax_spec scores h0).1
  have hlt62 : argmax scores < characters.toList.length := by
    rw [characters_toList_length]; omega
  rw [decode]
  rw [if_neg (by simpa [List.isEmpty_iff] using h0)]
  rw [dif_pos hlt62]
  rw [List.getD_eq_getElem _ _ hlt62]
  simp

/-- C1: over any length-62 score vector, the label decoding step is total and
deterministic, returning the alphabet character at the argmax index; the
selected index carries a maximal score and every earlier index carries a
strictly smaller score (first-occurrence tie-break); a constant vector
decodes to index 0, the character '0'. -/
theorem c1_decode_deterministic_argmax (scores : List ℚ)
    (hlen : scores.length = 62) :
    decode scores = .ok (characters.toList.getD (argmax scores) ' ') ∧
    argmax scores < 62 ∧
    (∀ j, j < 62 → scores.getD j 0 ≤ scores.getD (argmax scores) 0) ∧
    (∀ j, j < argmax scores → scores.getD j 0 < scores.getD (argmax scores) 0) ∧
    (∀ q : ℚ, decode (List.replicate 62 q) = .ok '0') := by
  have h0 : scores ≠ [] := by
    intro h; rw [h] at hlen; simp at hlen
  obtain ⟨hlt, hmax, hfirst⟩ := argmax_spec scores h0
  refine ⟨decode_eq_ok scores h0 (le_of_eq hlen), by omega, ?_, hfirst, ?_⟩
  · intro j hj
    exact hmax j (by omega)
  · intro q
    rw [decode_eq_ok (List.replicate 62 q) (by simp) (by simp)]
    have ha : argmax (List.replicate 62 q) = 0 := by
      have h61 := argmax_replicate 61 q
      norm_num at h61
      exact h61
    rw [ha]
    rfl

/-- Witness for C1 at a concrete length-62 score vector. -/
theorem c1_decode_deterministic_argmax_witness :
    decode ((List.replicate 62 (0 : ℚ)).set 5 1) =
      .ok (characters.toList.getD (argmax ((List.replicate 62 (0 : ℚ)).set 5 1)) ' ') :=
  (c1_decode_deterministic_argmax ((List.replicate 62 (0 : ℚ)).set 5 1) (by simp)).1

/-- C2 counterexample: index 35 of the alphabet is 'Z' (the last uppercase
letter), not 'a'; a length-62 one-hot score vector peaking at 35 decodes
to 'Z'. -/
theorem c2_index35_counterexample :
    decode ((List.replicate 62 (0 : ℚ)).set 35 1) = .ok 'Z' ∧
    characters.toList.getD 35 ' ' = 'Z' ∧ 'Z' ≠ 'a' := by
  refine ⟨by decide, by decide, by decide⟩

/-- C2 amended: the alphabet is the 62 characters '0'-'9' (codes 48..57),
then 'A'-'Z' (codes 65..90), then 'a'-'z' (codes 97..122); index 10 decodes
to 'A', index 36 (not 35, which is 'Z') decodes to 'a', and index 61 decodes
to 'z'. -/
theorem c2_alphabet_order :
    characters.toList.length = 62 ∧
    characters.toList.getD 10 ' ' = 'A' ∧
    characters.toList.getD 35 ' ' = 'Z' ∧
    characters.toList.getD 36 ' ' = 'a' ∧
    characters.toList.getD 61 ' ' = 'z' ∧
    characters.toList.map Char.toNat =
      ((List.range 10).map fun i => 48 + i) ++
        ((List.range 26).map fun i => 65 + i) ++
        ((List.range 26).map fun i => 97 + i) ∧
    decode ((List.replicate 62 (0 : ℚ)).set 10 1) = .ok 'A' ∧
    decode ((List.replicate 62 (0 : ℚ)).set 36 1) = .ok 'a' ∧
    decode ((List.replicate 62 (0 : ℚ)).set 61 1) = .ok 'z' := by
  refine ⟨by decide, by decide, by decide, by decide, by decide, by decide,
    by decide, by decide, by decide⟩

/-- C3 counterexample: a score vector of length 61 does not fail — the code
has no length check and defines no DecodeError; the argmax of a length-61
vector is below 62, so indexing `characters` succeeds. -/
theorem c3_length61_counterexample :
    decode (List.replicate 61 (0 : ℚ)) = .ok '0' := by decide

/-- C3 amended: `decode` always succeeds on a score vector of length exactly
62; it also succeeds — rather than failing with a DecodeError, which the code
does not define — on every nonempty vector of length at most 62, in
particular length 61. -/
theorem c3_decode_total_le62 (scores : List ℚ) (h0 : scores ≠ [])
    (hle : scores.length ≤ 62) :
    decode scores = .ok (characters.toList.getD (argmax scores) ' ') :=
  decode_eq_ok scores h0 hle

/-- Witness for C3 at a concrete length-61 score vector. -/
theorem c3_decode_total_le62_witness :
    decode (List.replicate 61 (1 : ℚ)) =
      .ok (characters.toList.getD (argmax (List.replicate 61 (1 : ℚ))) ' ') :=
  c3_decode_total_le62 (List.replicate 61 (1 : ℚ)) (by simp) (by simp)

/-! ## Shape propagation through the classifier layers -/

theorem convOut_shape (ker : List Grid) (b : ℚ) (input : Tensor3) (H W : Nat) :
    gridShape (convOut ker b input H W) H W := by
  refine ⟨by simp [convOut], ?_⟩
  intro row hrow
  obtain ⟨i, hi, rfl⟩ := List.mem_map.mp hrow
  simp

theorem conv2d_shape (weight : List (List Grid)) (bias : List ℚ)
    (input : Tensor3) (c h w : Nat) (hin : t3Shape input c h w)
    (hc : 0 < c) (hh : 0 < h) :
    t3Shape (conv2d weight bias input) weight.length h w := by
  obtain ⟨hlen, hch⟩ := hin
  have hch0 : input.getD 0 [] ∈ input := getD_mem input 0 [] (by omega)
  obtain ⟨hH, hrows⟩ := hch _ hch0
  have hrow0 : (input.getD 0 []).getD 0 [] ∈ input.getD 0 [] :=
    getD_mem _ 0 [] (by omega)
  have hW : ((input.getD 0 []).getD 0 []).length = w := hrows _ hrow0
  refine ⟨by simp [conv2d], ?_⟩
  intro ch hmem
  rw [conv2d] at hmem
  obtain ⟨oc, hoc, rfl⟩ := List.mem_map.mp hmem
  rw [hH, hW]
  exact convOut_shape _ _ _ _ _

theorem reluGrid_shape (g : Grid) (h w : Nat) (hg : gridShape g h w) :
    gridShape (reluGrid g) h w := by
  obtain ⟨hl, hr⟩ := hg
  refine ⟨by simpa [reluGrid], ?_⟩
  intro row hrow
  obtain ⟨row0, hrow0, rfl⟩ := List.mem_map.mp hrow
  simpa using hr row0 hrow0

theorem relu3_shape (t : Tensor3) (c h w : Nat) (ht : t3Shape t c h w) :
    t3Shape (relu3 t) c h w := by
  obtain ⟨hl, hc⟩ := ht
  refine ⟨by simpa [relu3], ?_⟩
  intro ch hmem
  obtain ⟨ch0, hch0, rfl⟩ := List.mem_map.mp hmem
  exact reluGrid_shape ch0 h w (hc ch0 hch0)

theorem pool2_shape (g : Grid) (h w : Nat) (hg : gridShape g h w) (hh : 0 < h) :
    gridShape (pool2 g) (h / 2) (w / 2) := by
  obtain ⟨hl, hr⟩ := hg
  have hw0 : (g.getD 0 []).length = w := hr _ (getD_mem g 0 [] (by omega))
  refine ⟨by simp [pool2, hl], ?_⟩
  intro row hrow
  rw [pool2] at hrow
  obtain ⟨i, hi, rfl⟩ := List.mem_map.mp hrow
  simp only [List.length_map, List.length_range, hw0]

theorem maxPool2_shape (t : Tensor3) (c h w : Nat) (ht : t3Shape t c h w)
    (hh : 0 < h) :
    t3Shape (maxPool2 t) c (h / 2) (w / 2) := by
  obtain ⟨hl, hc⟩ := ht
  refine ⟨by simpa [maxPool2], ?_⟩
  intro ch hmem
  obtain ⟨ch0, hch0, rfl⟩ := List.mem_map.mp hmem
  exact pool2_shape ch0 h w (hc ch0 hch0) hh

theorem flatten3_length (t : Tensor3) (c h w : Nat) (ht : t3Shape t c h w) :
    (flatten3 t).length = c * (h * w) := by
  obtain ⟨hl, hc⟩ := ht
  rw [flatten3, List.length_flatten, List.map_map]
  rw [← hl]
  refine sum_map_const (h * w) t _ ?_
  intro g hg
  obtain ⟨hgl, hgr⟩ := hc g hg
  simp only [Function.comp_apply]
  rw [List.length_flatten, ← hgl]
  exact sum_map_const w g _ hgr

theorem linear_length (weight : Grid) (bias : List ℚ) (x : List ℚ) :
    (linear weight bias x).length = weight.length := by
  simp [linear]

theorem reluV_length (x : List ℚ) : (reluV x).length = x.length := by
  simp [reluV]

theorem cnnStage1_shape (p : ModelParams) (hp : p.wf) (img : Tensor3)
    (himg : t3Shape img 1 28 28) : t3Shape (cnnStage1 p img) 32 14 14 := by
  have h1 : t3Shape (conv2d p.conv1w p.conv1b img) 32 28 28 := by
    have h := conv2d_shape p.conv1w p.conv1b img 1 28 28 himg (by omega) (by omega)
    rwa [hp.1] at h
  have h3 := maxPool2_shape _ 32 28 28 (relu3_shape _ 32 28 28 h1) (by omega)
  norm_num at h3
  exact h3

theorem cnnStage2_shape (p : ModelParams) (hp : p.wf) (t : Tensor3)
    (ht : t3Shape t 32 14 14) : t3Shape (cnnStage2 p t) 64 7 7 := by
  have h1 : t3Shape (conv2d p.conv2w p.conv2b t) 64 14 14 := by
    have h := conv2d_shape p.conv2w p.conv2b t 32 14 14 ht (by omega) (by omega)
    rwa [hp.2.2.1] at h
  have h3 := maxPool2_shape _ 64 14 14 (relu3_shape _ 64 14 14 h1) (by omega)
  norm_num at h3
  exact h3

theorem forwardOne_length (p : ModelParams) (hp : p.wf) (img : Tensor3) :
    (forwardOne p img).length = 62 := by
  rw [forwardOne, linear_length, hp.2.2.2.2.2.2.1]

/-- C7: on a correctly shaped `[1, 1, 28, 28]` input, the score output has
one row (the batch) whose score vector has length exactly 62, for every
parameter set the constructor can allocate and regardless of the input's
contents. -/
theorem c7_score_vector_length (p : ModelParams) (hp : p.wf) (x : Tensor4)
    (hx : t4Shape x 1 1 28 28) :
    ((score (get_model p) x).1).length = 1 ∧
    (((score (get_model p) x).1).getD 0 []).length = 62 := by
  obtain ⟨hxl, hxm⟩ := hx
  constructor
  · show (forward p x).length = 1
    simpa [forward] using hxl
  · show ((forward p x).getD 0 []).length = 62
    cases x with
    | nil => simp at hxl
    | cons img rest =>
      show ((forwardOne p img :: rest.map (forwardOne p)).getD 0 []).length = 62
      simpa using forwardOne_length p hp img

set_option maxRecDepth 4000 in
/-- Witness for C7 at concrete zero parameters and a black 28×28 image. -/
theorem c7_score_vector_length_witness :
    ((score (get_model zeroParams) [zeroImage]).1).length = 1 ∧
    (((score (get_model zeroParams) [zeroImage]).1).getD 0 []).length = 62 :=
  c7_score_vector_length zeroParams (by decide) [zeroImage] (by decide)

/-- C8: the forward pass follows the fixed architecture: the first
conv(1→32, 3×3, stride 1, padding 1)/relu/2×2-pool stage maps a 1×28×28
input to 32×14×14, the second (32→64) maps it to 64×7×7, flattening gives a
3136-vector, the hidden dense layer has 128 rectified units, and the output
layer yields 62 scores that are exactly the raw affine output of the last
linear layer, with no softmax or other normalisation applied. -/
theorem c8_forward_architecture (p : ModelParams) (hp : p.wf) (img : Tensor3)
    (himg : t3Shape img 1 28 28) :
    t3Shape (cnnStage1 p img) 32 14 14 ∧
    t3Shape (cnnStage2 p (cnnStage1 p img)) 64 7 7 ∧
    (flatten3 (cnnStage2 p (cnnStage1 p img))).length = 3136 ∧
    (hidden p (flatten3 (cnnStage2 p (cnnStage1 p img)))).length = 128 ∧
    (forwardOne p img).length = 62 ∧
    forwardOne p img =
      linear p.outw p.outb (hidden p (flatten3 (cnnStage2 p (cnnStage1 p img)))) := by
  have h1 := cnnStage1_shape p hp img himg
  have h2 := cnnStage2_shape p hp _ h1
  have h3 : (flatten3 (cnnStage2 p (cnnStage1 p img))).length = 3136 := by
    have h := flatten3_length _ 64 7 7 h2
    norm_num at h
    exact h
  have h4 : (hidden p (flatten3 (cnnStage2 p (cnnStage1 p img)))).length = 128 := by
    rw [hidden, reluV_length, linear_length, hp.2.2.2.2.1]
  exact ⟨h1, h2, h3, h4, forwardOne_length p hp img, rfl⟩

set_option maxRecDepth 4000 in
/-- Witness for C8 at concrete zero parameters and a black 28×28 image. -/
theorem c8_forward_architecture_witness :
    (forwardOne zeroParams zeroImage).length = 62 :=
  (c8_forward_architecture zeroParams (by decide) zeroImage (by decide)).2.2.2.2.1

/-- C9: scoring is a pure forward evaluation: running `score` returns the
model state — every parameter included — unchanged, `get_model` has placed
the model in inference mode (`training = false`), and the returned scores
are exactly the forward function of the untouched parameters. -/
theorem c9_score_preserves_params (p : ModelParams) (x : Tensor4) :
    (score (get_model p) x).2 = get_model p ∧
    ((score (get_model p) x).2).params = p ∧
    (get_model p).training = false ∧
    (score (get_model p) x).1 = forward p x :=
  ⟨rfl, rfl, rfl, rfl⟩

/-! ## Image normalisation lemmas -/

theorem lum_le (c : RGB) (h : c.r ≤ 255 ∧ c.g ≤ 255 ∧ c.b ≤ 255) :
    lum c ≤ 255 := by
  obtain ⟨h1, h2, h3⟩ := h
  rw [lum]
  omega

theorem grayscale_le (img : PILImage) (hwf : img.wf) :
    ∀ row ∈ grayscale img, ∀ v ∈ row, v ≤ 255 := by
  intro row hrow v hv
  rw [grayscale] at hrow
  obtain ⟨row0, hrow0, rfl⟩ := List.mem_map.mp hrow
  obtain ⟨c, hc, rfl⟩ := List.mem_map.mp hv
  exact lum_le c (hwf row0 hrow0 c hc)

theorem resize28_le (g : List (List Nat)) (hg : ∀ row ∈ g, ∀ v ∈ row, v ≤ 255) :
    ∀ row ∈ resize28 g, ∀ v ∈ row, v ≤ 255 := by
  intro row hrow v hv
  rw [resize28] at hrow
  obtain ⟨i, hi, rfl⟩ := List.mem_map.mp hrow
  obtain ⟨j, hj, rfl⟩ := List.mem_map.mp hv
  have houter : ∀ x ∈ g.getD (i * g.length / 28) [], x ≤ 255 :=
    getD_prop (P := fun r => ∀ x ∈ r, x ≤ 255) g _ [] hg (by simp)
  exact getD_prop (P := fun n => n ≤ 255) _ _ 0 houter (by omega)

theorem resize28_shape (g : List (List Nat)) :
    (resize28 g).length = 28 ∧ ∀ row ∈ resize28 g, row.length = 28 := by
  refine ⟨by simp [resize28], ?_⟩
  intro row hrow
  rw [resize28] at hrow
  obtain ⟨i, hi, rfl⟩ := List.mem_map.mp hrow
  simp

/-- C4: whenever `process_image` succeeds — for any base64 text and any
image decoder whose outputs have byte-valued pixel channels, hence for
source images of any resolution, aspect ratio or channel count — the
returned tensor has shape exactly [1, 1, 28, 28] and every entry lies in
the closed interval [0, 1]. -/
theorem c4_normalize_shape_range (dec : List Nat → Except String PILImage)
    (hdec : ∀ bs img, dec bs = .ok img → img.wf) (s : String) (t : Tensor4)
    (h : process_image dec s = .ok t) :
    t4Shape t 1 1 28 28 ∧
    ∀ b ∈ t, ∀ ch ∈ b, ∀ row ∈ ch, ∀ v ∈ row, 0 ≤ v ∧ v ≤ 1 := by
  rw [process_image] at h
  cases hb : b64decode s with
  | error e => rw [hb] at h; simp at h
  | ok bytes =>
    rw [hb] at h
    simp only [] at h
    cases hd : dec bytes with
    | error e => rw [hd] at h; simp at h
    | ok img =>
      rw [hd] at h
      have ht : t = [[toTensorQ (resize28 (grayscale img))]] := by
        injection h with h2
        exact h2.symm
      subst ht
      obtain ⟨hrl, hrr⟩ := resize28_shape (grayscale img)
      have hle := resize28_le (grayscale img) (grayscale_le img (hdec bytes img hd))
      constructor
      · refine ⟨rfl, ?_⟩
        intro b hb2
        rw [List.mem_singleton] at hb2
        subst hb2
        refine ⟨rfl, ?_⟩
        intro ch hch
        rw [List.mem_singleton] at hch
        subst hch
        constructor
        · simpa [toTensorQ] using hrl
        · intro row hrow
          rw [toTensorQ] at hrow
          obtain ⟨row0, hrow0, rfl⟩ := List.mem_map.mp hrow
          simpa using hrr row0 hrow0
      · intro b hb2 ch hch row hrow v hv
        rw [List.mem_singleton] at hb2
        subst hb2
        rw [List.mem_singleton] at hch
        subst hch
        rw [toTensorQ] at hrow
        obtain ⟨row0, hrow0, rfl⟩ := List.mem_map.mp hrow
        obtain ⟨u, hu, rfl⟩ := List.mem_map.mp hv
        have hu255 : (u : ℚ) ≤ 255 := by
          exact_mod_cast hle row0 hrow0 u hu
        constructor
        · positivity
        · rw [div_le_one (by norm_num)]
          exact hu255

/-- Witness for C4: the 1×1-image decoder and the base64 text "AAAA". -/
theorem c4_normalize_shape_range_witness :
    ([[toTensorQ (resize28 (grayscale ⟨[[⟨0, 0, 0⟩]]⟩))]] : Tensor4).length = 1 :=
  (c4_normalize_shape_range onePixelDecoder
    (fun bs img h => by
      injection h with h2
      subst h2
      decide)
    "AAAA" [[toTensorQ (resize28 (grayscale ⟨[[⟨0, 0, 0⟩]]⟩))]] rfl).1.1

/-! ## Error propagation -/

/-- Every failure of `process_image` is the generic exception raised on
line 52, whose message is the fixed image-processing text followed by the
underlying cause. -/
theorem process_image_error_shape (dec : List Nat → Except String PILImage)
    (s : String) (e : String) (h : process_image dec s = .error e) :
    ∃ cause, e = "Error processing image: " ++ cause := by
  rw [process_image] at h
  cases hb : b64decode s with
  | error e2 =>
    rw [hb] at h
    simp only [] at h
    injection h with h2
    exact ⟨e2, h2.symm⟩
  | ok bytes =>
    rw [hb] at h
    simp only [] at h
    cases hd : dec bytes with
    | error e2 =>
      rw [hd] at h
      injection h with h2
      exact ⟨e2, h2.symm⟩
    | ok img =>
      rw [hd] at h
      simp at h

/-- C5: every malformed base64 input makes `recognize_text` fail with the
image-processing error wrapped inside the recognition error: the result is
exactly the doubly wrapped generic exception, never an unwrapped low-level
failure and never a decode crash. -/
theorem c5_malformed_base64_wrapped (dec : List Nat → Except String PILImage)
    (p : ModelParams) (s : String) (e : String) (hb : b64decode s = .error e) :
    recognize_text dec p s =
      .error ("Error recognizing text: " ++ ("Error processing image: " ++ e)) := by
  have hp : process_image dec s = .error ("Error processing image: " ++ e) := by
    rw [process_image, hb]
  simp only [recognize_text, hp]

/-- Witness for C5 at the spec's malformed input "not-base64!!". -/
theorem c5_malformed_base64_wrapped_witness :
    recognize_text onePixelDecoder zeroParams "not-base64!!" =
      .error ("Error recognizing text: " ++
        ("Error processing image: " ++ "Invalid padding")) :=
  c5_malformed_base64_wrapped onePixelDecoder zeroParams "not-base64!!"
    "Invalid padding" (by decide)

/-- C6: whenever the normaliser fails, `recognize_text` propagates the
failure rather than swallowing it: the image-processing error message
carries the underlying cause description, and the recognition error wraps
that entire message. -/
theorem c6_normalizer_failure_propagated (dec : List Nat → Except String PILImage)
    (p : ModelParams) (s : String) (e : String)
    (hp : process_image dec s = .error e) :
    (∃ cause, e = "Error processing image: " ++ cause) ∧
    recognize_text dec p s = .error ("Error recognizing text: " ++ e) := by
  refine ⟨process_image_error_shape dec s e hp, ?_⟩
  simp only [recognize_text, hp]

/-- Witness for C6: undecodable image bytes behind valid base64 text. -/
theorem c6_normalizer_failure_propagated_witness :
    recognize_text failingDecoder zeroParams "AAAA" =
      .error ("Error recognizing text: " ++
        "Error processing image: cannot identify image file") :=
  (c6_normalizer_failure_propagated failingDecoder zeroParams "AAAA"
    "Error processing image: cannot identify image file" (by decide)).2

/-- C10: every failure of `recognize_text` is the same generic error kind
(one message string), its message starting with the recognition text; when
the underlying failure occurred during image processing, the message nests
the image-processing text together with the root cause, the two wrapping
layers being distinguishable only through these message contents. -/
theorem c10_error_message_structure (dec : List Nat → Except String PILImage)
    (p : ModelParams) (s : String) (e : String)
    (he : recognize_text dec p s = .error e) :
    (∃ m, e = "Error recognizing text: " ++ m) ∧
    (∀ e2, process_image dec s = .error e2 →
      ∃ cause, e2 = "Error processing image: " ++ cause ∧
        e = "Error recognizing text: " ++ ("Error processing image: " ++ cause)) := by
  cases hp : process_image dec s with
  | error e2 =>
    simp only [recognize_text, hp] at he
    injection he with h2
    obtain ⟨cause, hc⟩ := process_image_error_shape dec s e2 hp
    constructor
    · exact ⟨e2, h2.symm⟩
    · intro e3 h3
      injection h3 with h4
      refine ⟨cause, by rw [← h4]; exact hc, ?_⟩
      rw [← hc]
      exact h2.symm
  | ok t =>
    simp only [recognize_text, hp] at he
    cases hd : decode (((score (get_model p) t).1).getD 0 []) with
    | error d =>
      rw [hd] at he
      injection he with h2
      constructor
      · exact ⟨d, h2.symm⟩
      · intro e3 h3
        simp at h3
    | ok c =>
      rw [hd] at he
      simp at he

/-- Witness for C10 at a concrete failing call. -/
theorem c10_error_message_structure_witness :
    ∃ m, ("Error recognizing text: " ++ ("Error processing image: " ++ "Invalid padding")) =
      "Error recognizing text: " ++ m :=
  (c10_error_message_structure onePixelDecoder zeroParams "not-base64!!"
    ("Error recognizing text: " ++ ("Error processing image: " ++ "Invalid padding"))
    (by decide)).1

end HandwritingRecognition
